import Mathlib

/-!
Verification of the order-lifecycle and inventory-reservation core of the
`herabuna_b2b` wholesale ordering platform (Django application, `b2b` app).

The definitions below are a shallow embedding of the Python source:

* `Stock`, `availOf`, `reserveAll`, `releaseAll` — the stock mutations done by
  `submit_order` / `order_checkout_confirm` (reserve) and the `cancel` branch of
  `order_admin_action` (restock) in `b2b/views.py`.  `stock_qty` is a Django
  `IntegerField`, hence modelled as `ℤ`; a sellable unit (variant when the line
  has one, otherwise the product) is identified by a natural number, and each
  line of one order references a distinct unit (`unique_together =
  ("order", "product", "variant")` in `b2b/models.py`).
* `submitOrder` — the availability check and reservation loop shared verbatim by
  `submit_order` (views.py lines 388–432) and `order_checkout_confirm`
  (lines 681–762): both first scan `order.items` and bail out with an error
  message naming the first short line, then subtract each line's qty.
* `orderAdminAction` — the staff `confirm`/`cancel`/`ship` actions
  (views.py lines 466–570), `orderSetStatus` — the deprecated
  `order_set_status` view (lines 592–601).
* `productUpdateInline` — the staff inline editor (lines 573–589).
* `syncProductCore`, `syncVariantFields`, `syncVariantsPass` — the Woo catalog
  pull in `b2b/admin.py` (`sync_with_woo`), `commandSyncProduct` — the pull in
  `b2b/management/commands/sync_woo.py`.
* `computeOrderWeightKg` — `_compute_order_weight_kg` in `b2b/services/np_api.py`
  (Python floats are modelled as exact rationals; all quantities involved are
  integers divided by powers of ten, for which the modelled arithmetic and the
  float arithmetic of the source agree on the discussed inputs).
* `addToCart`, `cartUpdateItemSet` — the cart mutations (views.py lines
  231–257, 263–305, 317–355); `add_to_cart_with_attrs` applies the same
  quantity arithmetic with the variant's stock in place of the product's.
-/

/-- On-hand quantity per sellable unit (variant when present, else product).
`Product.stock_qty` / `ProductVariant.stock_qty` are `IntegerField`s, so `ℤ`. -/
def Stock : Type := Nat → Int

/-- `max(0, int(... .stock_qty))` — the "available" figure computed by the
views before comparing with a line quantity. -/
def availOf (s : Stock) (u : Nat) : Int := max 0 (s u)

/-- One order line: the referenced unit (variant id when `it.variant` is set,
otherwise product id), the parent product's sku (used in error messages) and the
ordered quantity (`OrderItem.qty` is a `PositiveIntegerField`). -/
structure Line where
  unit : Nat
  sku : String
  qty : Nat
deriving DecidableEq, Repr

/-- Point update of one unit's on-hand quantity by a signed delta. -/
def applyDelta (s : Stock) (u : Nat) (d : Int) : Stock :=
  fun v => if v = u then s v + d else s v

/-- The reservation loop of `submit_order` / `order_checkout_confirm`:
`it.variant.stock_qty -= it.qty` resp. `it.product.stock_qty -= it.qty`,
line by line. -/
def reserveAll (s : Stock) (ls : List Line) : Stock :=
  ls.foldl (fun st l => applyDelta st l.unit (-(l.qty : Int))) s

/-- The restock loop of the `cancel` branch of `order_admin_action`:
`stock_qty += it.qty`, line by line. -/
def releaseAll (s : Stock) (ls : List Line) : Stock :=
  ls.foldl (fun st l => applyDelta st l.unit (l.qty : Int)) s

/-- A sequence of unrelated stock adjustments, each a (unit, signed delta). -/
def applyAdjs (s : Stock) (adjs : List (Nat × Int)) : Stock :=
  adjs.foldl (fun st p => applyDelta st p.1 p.2) s

/-- Total quantity the lines `ls` order from unit `u`. -/
def linesQty (ls : List Line) (u : Nat) : Int :=
  ((ls.filter (fun l => l.unit = u)).map (fun l => (l.qty : Int))).sum

/-- Net delta the adjustments `adjs` apply to unit `u`. -/
def adjSum (adjs : List (Nat × Int)) (u : Nat) : Int :=
  ((adjs.filter (fun p => p.1 = u)).map (fun p => p.2)).sum

/-- The availability scan of `submit_order` / `order_checkout_confirm`: walk the
items in order and return the first line whose quantity exceeds
`max(0, stock_qty)`, together with that available figure (the view returns an
error message naming exactly this line and this figure). -/
def firstShort (s : Stock) : List Line → Option (Line × Int)
  | [] => none
  | l :: ls =>
      if availOf s l.unit < (l.qty : Int) then some (l, availOf s l.unit)
      else firstShort s ls

/-- Order statuses, `Order.STATUS_CHOICES` in `b2b/models.py`. -/
inductive Status where
  | draft
  | submitted
  | pending_payment
  | shipped
  | cancelled
deriving DecidableEq, Repr

/-- Outcome of a draft submission: the stock after the call, the order's status
after the call, and the list of (sku, available) pairs reported to the dealer
as insufficient. -/
structure SubmitResult where
  stock : Stock
  status : Status
  reported : List (String × Int)

/-- The shared core of `submit_order` (views.py 388–432) and
`order_checkout_confirm` (views.py 681–762): an empty draft is not submitted;
otherwise the items are scanned for availability and the whole call returns
with an error naming the first short line, before any stock is written;
only when every line passes is every line's quantity subtracted and the status
set to `submitted`. -/
def submitOrder (s : Stock) (items : List Line) : SubmitResult :=
  if items.isEmpty then ⟨s, .draft, []⟩
  else
    match firstShort s items with
    | some (l, avail) => ⟨s, .draft, [(l.sku, avail)]⟩
    | none => ⟨reserveAll s items, .submitted, []⟩

-- ------------------------------------------------------------------
-- Pointwise characterisations of the stock folds
-- ------------------------------------------------------------------

theorem reserveAll_apply (ls : List Line) (s : Stock) (u : Nat) :
    reserveAll s ls u = s u - linesQty ls u := by
  induction ls generalizing s with
  | nil => simp [reserveAll, linesQty]
  | cons l ls ih =>
      have hstep : reserveAll s (l :: ls)
          = reserveAll (applyDelta s l.unit (-(l.qty : Int))) ls := rfl
      rw [hstep, ih]
      by_cases h : l.unit = u
      · subst h
        simp [linesQty, applyDelta, List.filter_cons]
        ring
      · have h' : ¬ u = l.unit := fun hc => h hc.symm
        simp [linesQty, applyDelta, List.filter_cons, h, h']

theorem releaseAll_apply (ls : List Line) (s : Stock) (u : Nat) :
    releaseAll s ls u = s u + linesQty ls u := by
  induction ls generalizing s with
  | nil => simp [releaseAll, linesQty]
  | cons l ls ih =>
      have hstep : releaseAll s (l :: ls)
          = releaseAll (applyDelta s l.unit (l.qty : Int)) ls := rfl
      rw [hstep, ih]
      by_cases h : l.unit = u
      · subst h
        simp [linesQty, applyDelta, List.filter_cons]
        ring
      · have h' : ¬ u = l.unit := fun hc => h hc.symm
        simp [linesQty, applyDelta, List.filter_cons, h, h']

theorem applyAdjs_apply (adjs : List (Nat × Int)) (s : Stock) (u : Nat) :
    applyAdjs s adjs u = s u + adjSum adjs u := by
  induction adjs generalizing s with
  | nil => simp [applyAdjs, adjSum]
  | cons p ps ih =>
      have hstep : applyAdjs s (p :: ps)
          = applyAdjs (applyDelta s p.1 p.2) ps := rfl
      rw [hstep, ih]
      by_cases h : p.1 = u
      · subst h
        simp [adjSum, applyDelta, List.filter_cons]
        ring
      · have h' : ¬ u = p.1 := fun hc => h hc.symm
        simp [adjSum, applyDelta, List.filter_cons, h, h']

theorem firstShort_eq_none_iff (s : Stock) (ls : List Line) :
    firstShort s ls = none ↔ ∀ l ∈ ls, (l.qty : Int) ≤ availOf s l.unit := by
  induction ls with
  | nil => simp [firstShort]
  | cons l ls ih =>
      by_cases h : availOf s l.unit < (l.qty : Int)
      · simp only [firstShort, if_pos h]
        constructor
        · intro hc; exact absurd hc (by simp)
        · intro hall
          exact absurd (hall l (by simp)) (not_le.mpr h)
      · simp only [firstShort, if_neg h, ih]
        constructor
        · intro hall l' hl'
          rcases List.mem_cons.mp hl' with h1 | h2
          · rw [h1]; exact not_lt.mp h
          · exact hall l' h2
        · intro hall l' hl'
          exact hall l' (List.mem_cons_of_mem _ hl')

/-- C1: For every draft order submission (`submit_order` or
`order_checkout_confirm`), if any line's quantity exceeds the available on-hand
quantity of its unit (variant when present, otherwise product), the whole
submission is rejected (an insufficiency is reported), the order stays in
`draft`, and the on-hand quantity of every unit is unchanged — no partial
reservation is ever applied. -/
theorem submit_insufficient_stock_rejected (s : Stock) (items : List Line)
    (l : Line) (hmem : l ∈ items) (hshort : availOf s l.unit < (l.qty : Int)) :
    (submitOrder s items).reported ≠ [] ∧
    (submitOrder s items).status = .draft ∧
    (submitOrder s items).stock = s := by
  have hne : items ≠ [] := by
    intro h; rw [h] at hmem; exact absurd hmem (List.not_mem_nil l)
  have hfs : firstShort s items ≠ none := by
    intro h
    have := (firstShort_eq_none_iff s items).mp h l hmem
    exact absurd this (not_le.mpr hshort)
  unfold submitOrder
  rw [if_neg (by simpa [List.isEmpty_iff] using hne)]
  cases hcase : firstShort s items with
  | none => exact absurd hcase hfs
  | some p => simp

/-- Concrete instance for `submit_insufficient_stock_rejected`: one line asking
for 5 units of a unit with 1 on hand. -/
def exStock1 : Stock := fun _ => 1

theorem submit_insufficient_stock_rejected_witness :
    (⟨0, "A", 5⟩ : Line) ∈ [(⟨0, "A", 5⟩ : Line)] ∧
    availOf exStock1 0 < ((5 : Nat) : Int) ∧
    (submitOrder exStock1 [⟨0, "A", 5⟩]).reported ≠ [] ∧
    (submitOrder exStock1 [⟨0, "A", 5⟩]).status = .draft ∧
    (submitOrder exStock1 [⟨0, "A", 5⟩]).stock = exStock1 :=
  ⟨by decide, by decide,
   submit_insufficient_stock_rejected exStock1 [⟨0, "A", 5⟩] ⟨0, "A", 5⟩
     (by decide) (by decide)⟩

-- ------------------------------------------------------------------
-- Order state machine: staff actions and the deprecated status setter
-- ------------------------------------------------------------------

/-- The order fields the staff actions read or write: current status, line
items, and the shipping fields recorded by the `ship` action
(`shipping_ttn`, `shipping_np_ref`, `shipped_at`). -/
structure OrderSt where
  status : Status
  items : List Line
  shippingTtn : String
  shippingNpRef : String
  shippedAt : Option Nat
deriving DecidableEq, Repr

/-- Staff actions of `order_admin_action`; `other` is any unknown action
string (the view answers 400 without touching anything). -/
inductive AdminAct where
  | confirm
  | cancel
  | ship
  | other (s : String)
deriving DecidableEq, Repr

/-- Result of a staff action: the order and the stock after the call, plus the
error message shown to the staff actor when the action was refused. -/
structure ActionResult where
  order : OrderSt
  stock : Stock
  err : Option String

/-- `order_admin_action` (views.py 466–570).  `confirm` requires status
`submitted`; `cancel` requires `submitted` or `pending_payment` and restocks
every line; `ship` requires `pending_payment`, calls the shipping provider
(`np_api.create_ttn`, modelled by the `ttnResult` argument since it is
network-bound), records ttn/doc-ref/timestamp on success and aborts with an
error message on failure; any other action string answers 400.  Every refused
branch returns order and stock unchanged. -/
def orderAdminAction (act : AdminAct) (o : OrderSt) (s : Stock)
    (ttnResult : Except String (String × String)) (now : Nat) : ActionResult :=
  match act with
  | .confirm =>
      if o.status = .submitted then
        ⟨{ o with status := .pending_payment }, s, none⟩
      else ⟨o, s, some "confirm allowed only from submitted"⟩
  | .cancel =>
      if o.status = .submitted ∨ o.status = .pending_payment then
        ⟨{ o with status := .cancelled }, releaseAll s o.items, none⟩
      else ⟨o, s, some "cancel allowed only from submitted or pending_payment"⟩
  | .ship =>
      if o.status = .pending_payment then
        match ttnResult with
        | .error e => ⟨o, s, some ("TTN creation failed: " ++ e)⟩
        | .ok (ttn, docRef) =>
            ⟨{ o with shippingTtn := ttn, shippingNpRef := docRef,
                      shippedAt := some now, status := .shipped }, s, none⟩
      else ⟨o, s, some "ship allowed only from pending_payment"⟩
  | .other _ => ⟨o, s, some "Unknown action"⟩

/-- The status strings accepted by `order_set_status` (views.py 592–601). -/
def parseStatus (s : String) : Option Status :=
  if s = "draft" then some .draft
  else if s = "submitted" then some .submitted
  else if s = "pending_payment" then some .pending_payment
  else if s = "shipped" then some .shipped
  else if s = "cancelled" then some .cancelled
  else none

/-- The deprecated staff view `order_set_status` (views.py 592–601): any of the
five status strings is written onto the order unconditionally (no guard on the
current status, no stock effect); an unknown string answers 400 (`none`). -/
def orderSetStatus (o : OrderSt) (status : String) : Option OrderSt :=
  (parseStatus status).map (fun st => { o with status := st })

/-- Guard table of `order_admin_action`: the (current status, action) pairs the
view accepts. -/
def allowedAction : Status → AdminAct → Bool
  | .submitted, .confirm => true
  | .submitted, .cancel => true
  | .pending_payment, .cancel => true
  | .pending_payment, .ship => true
  | _, _ => false

/-- Transition table of the specification's order state machine (§4.3),
restricted to status changes: submit, confirm, cancel (from either
pre-terminal state) and ship.  Stated from the spec's table in order to compare
the code's operations against it. -/
def specAllowedStatusChange : Status → Status → Bool
  | .draft, .submitted => true
  | .submitted, .pending_payment => true
  | .submitted, .cancelled => true
  | .pending_payment, .cancelled => true
  | .pending_payment, .shipped => true
  | _, _ => false

theorem submitOrder_stock_of_submitted (s : Stock) (items : List Line)
    (h : (submitOrder s items).status = .submitted) :
    (submitOrder s items).stock = reserveAll s items := by
  unfold submitOrder at *
  by_cases he : items.isEmpty
  · rw [if_pos he] at h; exact absurd h (by simp)
  · rw [if_neg he] at *
    cases hfs : firstShort s items with
    | none => rfl
    | some p => rw [hfs] at h; exact absurd h (by simp)

theorem adjSum_eq_zero_of_not_mem (adjs : List (Nat × Int)) (u : Nat)
    (h : ∀ p ∈ adjs, p.1 ≠ u) : adjSum adjs u = 0 := by
  unfold adjSum
  have : adjs.filter (fun p => p.1 = u) = [] := by
    rw [List.filter_eq_nil_iff]
    intro p hp
    simp [h p hp]
  rw [this]
  simp

/-- C2: for every order and every inventory state, a successful submit
(subtracting each line's qty from its unit) followed by a cancel of the same
order (adding each line's qty back) restores every unit referenced by the order
to its pre-submit on-hand quantity, regardless of intervening adjustments to
units not referenced by the order; units not referenced end at their pre-submit
value with exactly those adjustments applied. -/
theorem submit_cancel_roundtrip (s : Stock) (items : List Line)
    (adjs : List (Nat × Int)) (o : OrderSt)
    (ttnResult : Except String (String × String)) (now : Nat)
    (hsub : (submitOrder s items).status = .submitted)
    (ho : o.status = .submitted) (hoi : o.items = items)
    (hadj : ∀ p ∈ adjs, ∀ l ∈ items, p.1 ≠ l.unit) :
    (∀ u, (orderAdminAction .cancel o
        (applyAdjs (submitOrder s items).stock adjs) ttnResult now).stock u
      = applyAdjs s adjs u) ∧
    (∀ u, (∃ l ∈ items, l.unit = u) →
      (orderAdminAction .cancel o
        (applyAdjs (submitOrder s items).stock adjs) ttnResult now).stock u
      = s u) := by
  have hres : (orderAdminAction .cancel o
      (applyAdjs (submitOrder s items).stock adjs) ttnResult now).stock
      = releaseAll (applyAdjs (submitOrder s items).stock adjs) o.items := by
    simp [orderAdminAction, ho]
  have hmain : ∀ u, (orderAdminAction .cancel o
      (applyAdjs (submitOrder s items).stock adjs) ttnResult now).stock u
      = applyAdjs s adjs u := by
    intro u
    rw [hres, hoi, releaseAll_apply, applyAdjs_apply,
      submitOrder_stock_of_submitted s items hsub, reserveAll_apply,
      applyAdjs_apply]
    ring
  refine ⟨hmain, fun u hu => ?_⟩
  rw [hmain u, applyAdjs_apply]
  obtain ⟨l, hl, hlu⟩ := hu
  have : adjSum adjs u = 0 :=
    adjSum_eq_zero_of_not_mem adjs u (fun p hp => hlu ▸ hadj p hp l hl)
  rw [this]
  ring

/-- Concrete instance for `submit_cancel_roundtrip`: unit 0 holds 5, the order
takes 3 of it, unit 1 is restocked by 7 in between; after cancel, unit 0 is
back at 5. -/
def exOrderSub : OrderSt :=
  { status := .submitted, items := [⟨0, "A", 3⟩],
    shippingTtn := "", shippingNpRef := "", shippedAt := none }

def exStock5 : Stock := fun _ => 5

theorem submit_cancel_roundtrip_witness :
    (submitOrder exStock5 [⟨0, "A", 3⟩]).status = .submitted ∧
    (orderAdminAction .cancel exOrderSub
      (applyAdjs (submitOrder exStock5 [⟨0, "A", 3⟩]).stock [(1, 7)])
      (.error "no call") 0).stock 0 = exStock5 0 :=
  ⟨by decide,
   (submit_cancel_roundtrip exStock5 [⟨0, "A", 3⟩] [(1, 7)] exOrderSub
      (.error "no call") 0 (by decide) (by decide) rfl
      (by intro p hp l hl; simp at hp hl; simp [hp, hl])).2 0
      ⟨⟨0, "A", 3⟩, by decide, rfl⟩⟩

/-- C5 (amended part): `order_admin_action` refuses every (status, action)
pair outside its guard table — in particular `cancel` on an already-cancelled
order, so stock is never double-released — and leaves the order, the stock and
the shipping fields unchanged, reporting an error to the staff actor. -/
theorem admin_action_invalid_transition_unchanged (act : AdminAct) (o : OrderSt)
    (s : Stock) (ttnResult : Except String (String × String)) (now : Nat)
    (h : allowedAction o.status act = false) :
    (orderAdminAction act o s ttnResult now).order = o ∧
    (orderAdminAction act o s ttnResult now).stock = s ∧
    (orderAdminAction act o s ttnResult now).err.isSome := by
  cases act with
  | confirm =>
      cases hst : o.status <;> rw [hst] at h <;>
        simp_all [orderAdminAction, allowedAction, hst]
  | cancel =>
      cases hst : o.status <;> rw [hst] at h <;>
        simp_all [orderAdminAction, allowedAction, hst]
  | ship =>
      cases hst : o.status <;> rw [hst] at h <;>
        simp_all [orderAdminAction, allowedAction, hst]
  | other a =>
      simp [orderAdminAction]

/-- Concrete instance for `admin_action_invalid_transition_unchanged`:
cancelling an already-cancelled order changes nothing (no double release). -/
def exCancelledOrder : OrderSt :=
  { status := .cancelled, items := [⟨0, "A", 1⟩],
    shippingTtn := "", shippingNpRef := "", shippedAt := none }

theorem admin_action_invalid_transition_unchanged_witness :
    allowedAction exCancelledOrder.status .cancel = false ∧
    ((orderAdminAction .cancel exCancelledOrder exStock5
        (.error "no call") 0).order = exCancelledOrder ∧
     (orderAdminAction .cancel exCancelledOrder exStock5
        (.error "no call") 0).stock = exStock5 ∧
     (orderAdminAction .cancel exCancelledOrder exStock5
        (.error "no call") 0).err.isSome) :=
  ⟨by decide,
   admin_action_invalid_transition_unchanged .cancel exCancelledOrder exStock5
     (.error "no call") 0 (by decide)⟩

/-- C5 (counterexample): the deprecated staff view `order_set_status` moves a
cancelled order straight to `submitted` — a status change outside the
specification's transition table — so it is not true that no staff operation
can move an order along a transition outside the table. -/
theorem set_status_escapes_transition_table :
    orderSetStatus exCancelledOrder "submitted"
      = some { exCancelledOrder with status := .submitted } ∧
    specAllowedStatusChange .cancelled .submitted = false := by
  constructor
  · rfl
  · decide

/-- C6: a `ship` attempt on a `pending_payment` order whose shipping-provider
call fails leaves the order entirely unchanged — status still
`pending_payment`, no tracking number, document reference or shipped timestamp
recorded — leaves every unit's on-hand quantity unchanged, and surfaces the
failure to the staff actor. -/
theorem ship_provider_failure_aborts (o : OrderSt) (s : Stock) (e : String)
    (now : Nat) (h : o.status = .pending_payment) :
    (orderAdminAction .ship o s (.error e) now).order = o ∧
    (orderAdminAction .ship o s (.error e) now).order.status
      = .pending_payment ∧
    (orderAdminAction .ship o s (.error e) now).order.shippingTtn
      = o.shippingTtn ∧
    (orderAdminAction .ship o s (.error e) now).order.shippingNpRef
      = o.shippingNpRef ∧
    (orderAdminAction .ship o s (.error e) now).order.shippedAt
      = o.shippedAt ∧
    (orderAdminAction .ship o s (.error e) now).stock = s ∧
    (orderAdminAction .ship o s (.error e) now).err.isSome := by
  simp [orderAdminAction, h]

/-- Concrete instance for `ship_provider_failure_aborts`. -/
def exPendingOrder : OrderSt :=
  { status := .pending_payment, items := [⟨0, "A", 2⟩],
    shippingTtn := "", shippingNpRef := "", shippedAt := none }

theorem ship_provider_failure_aborts_witness :
    exPendingOrder.status = .pending_payment ∧
    ((orderAdminAction .ship exPendingOrder exStock5
        (.error "NP down") 3).order = exPendingOrder ∧
     (orderAdminAction .ship exPendingOrder exStock5
        (.error "NP down") 3).order.status = .pending_payment ∧
     (orderAdminAction .ship exPendingOrder exStock5
        (.error "NP down") 3).order.shippingTtn = exPendingOrder.shippingTtn ∧
     (orderAdminAction .ship exPendingOrder exStock5
        (.error "NP down") 3).order.shippingNpRef
        = exPendingOrder.shippingNpRef ∧
     (orderAdminAction .ship exPendingOrder exStock5
        (.error "NP down") 3).order.shippedAt = exPendingOrder.shippedAt ∧
     (orderAdminAction .ship exPendingOrder exStock5
        (.error "NP down") 3).stock = exStock5 ∧
     (orderAdminAction .ship exPendingOrder exStock5
        (.error "NP down") 3).err.isSome) :=
  ⟨by decide,
   ship_provider_failure_aborts exPendingOrder exStock5 "NP down" 3 (by decide)⟩

-- ------------------------------------------------------------------
-- Products, variants and the Woo catalog pull
-- ------------------------------------------------------------------

/-- The `Product` fields read or written by the claims under study (`b2b/models.py`
66–110; descriptive fields — images, descriptions, categories, brand, facets —
are not modelled).  Prices are fixed-point decimals, modelled as rationals;
`stock_qty` is an `IntegerField`. -/
structure ProductRec where
  sku : String
  name : String
  wholesalePrice : Rat
  retailPrice : Rat
  stockQty : Int
  isActive : Bool
  wooId : Option Int
  weightG : Int
deriving DecidableEq, Repr

/-- The `ProductVariant` fields read or written by the claims under study
(`b2b/models.py` 134–157; `attributes` and `image_url` are not modelled). -/
structure VariantRec where
  wooVariationId : Int
  sku : String
  retailPrice : Rat
  wholesalePrice : Rat
  stockQty : Int
  isActive : Bool
  weightG : Int
deriving DecidableEq, Repr

/-- A product snapshot from the external catalog (WooCommerce REST payload),
with Python falsiness made explicit: `name` is `""` when missing, `price` and
`weight` are `none` when missing or an empty string (Woo serialises them as
strings, so a literal "0" is truthy and becomes `some 0`), `id` and
`stock_quantity` are `none` when missing. -/
structure WooProduct where
  sku : String
  name : String
  price : Option Rat
  status : String
  id : Option Int
  stockQuantity : Option Int
  weight : Option Rat
deriving DecidableEq, Repr

/-- A variant snapshot from the external catalog (same conventions). -/
structure WooVariant where
  id : Option Int
  sku : String
  price : Option Rat
  stockQuantity : Option Int
  status : String
  weight : Option Rat
deriving DecidableEq, Repr

/-- Python `int()` on a non-negative float/decimal: truncation toward zero,
which is what `Int` division by the denominator gives. -/
def pyInt (q : Rat) : Int := q.num / (q.den : Int)

/-- Weight-string handling of `sync_with_woo` (`b2b/admin.py` 100–105 and
209–214): empty or unparseable strings give 0 grams; otherwise
`int(w) if w <= 10000 else int(w * 1000)` (best-effort grams). -/
def wooWeightGrams (w : Option Rat) : Int :=
  match w with
  | none => 0
  | some w => if w ≤ 10000 then pyInt w else pyInt (w * 1000)

/-- `product_update_inline` (views.py 573–589): staff sends new wholesale
price, stock quantity and active flag; unparseable price or stock values are
silently ignored (`try/except` keeps the old value, modelled by `none`); the
parsed integer is stored as-is — there is no lower bound check on the stock
quantity. -/
def productUpdateInline (p : ProductRec) (wholesaleIn : Option Rat)
    (stockIn : Option Int) (activeIn : Bool) : ProductRec :=
  { p with
    wholesalePrice := wholesaleIn.getD p.wholesalePrice,
    stockQty := stockIn.getD p.stockQty,
    isActive := activeIn }

/-- Core product-field update of the admin pull `sync_with_woo`
(`b2b/admin.py` 93–121): name (kept when the snapshot's is empty), retail
price (`wp.get("price") or p.retail_price or 0` — a `Decimal` 0 is falsy, so
the chain collapses to the snapshot's price when present, else the old value),
active flag from the publish status, the external id, and the converted
weight.  Neither `wholesale_price` nor `stock_qty` is written here. -/
def syncProductCore (wp : WooProduct) (p : ProductRec) : ProductRec :=
  { p with
    name := if wp.name ≠ "" then wp.name else p.name,
    retailPrice := wp.price.getD p.retailPrice,
    isActive := wp.status = "publish",
    wooId := wp.id,
    weightG := wooWeightGrams wp.weight }

/-- Existing-product update of the management command `sync_woo`
(`b2b/management/commands/sync_woo.py` 27–32): like the admin pull but it also
writes `stock_qty` (`wp.get('stock_quantity') or p.stock_qty`: a snapshot
quantity of 0 is falsy and keeps the local value).  `wholesale_price` is not
written. -/
def commandSyncProduct (wp : WooProduct) (p : ProductRec) : ProductRec :=
  { p with
    name := if wp.name ≠ "" then wp.name else p.name,
    retailPrice := wp.price.getD p.retailPrice,
    stockQty := match wp.stockQuantity with
      | some n => if n ≠ 0 then n else p.stockQty
      | none => p.stockQty,
    isActive := wp.status = "publish",
    wooId := wp.id }

/-- Per-variant field update of the admin pull (`b2b/admin.py` 216–229):
sku, retail price (falsy chain over snapshot price, old variant price, parent
price), wholesale price filled from the parent only when the variant's own
wholesale price is zero (`if not var.wholesale_price`), stock
(`v.get("stock_quantity") or 0`), active flag, weight. -/
def syncVariantFields (p : ProductRec) (old : VariantRec) (v : WooVariant) :
    VariantRec :=
  { old with
    sku := v.sku,
    retailPrice := match v.price with
      | some q => q
      | none => if old.retailPrice ≠ 0 then old.retailPrice else p.retailPrice,
    wholesalePrice :=
      if old.wholesalePrice = 0 then p.wholesalePrice else old.wholesalePrice,
    stockQty := v.stockQuantity.getD 0,
    isActive := v.status = "publish",
    weightG := wooWeightGrams v.weight }

/-- `ProductVariant.objects.get_or_create(woo_variation_id=vid, ...)` followed
by the field assignments: update the matching stored variant, or create one
with the model's defaults (empty sku, zero prices and stock, active) and then
apply the same field update. -/
def upsertVariant (p : ProductRec) (vars : List VariantRec) (vid : Int)
    (v : WooVariant) : List VariantRec :=
  if vars.any (fun r => r.wooVariationId = vid) then
    vars.map (fun r => if r.wooVariationId = vid then syncVariantFields p r v else r)
  else
    vars ++ [syncVariantFields p
      { wooVariationId := vid, sku := "", retailPrice := 0, wholesalePrice := 0,
        stockQty := 0, isActive := true, weightG := 0 } v]

/-- The variants pass of the admin pull (`b2b/admin.py` 191–243) for a
variable product: walk the fetched variant snapshots, skipping those with a
falsy id (`if not vid: continue`), upsert each and accumulate
`qty_sum += int(v["stock_quantity"])` whenever the snapshot carries a stock
quantity (regardless of the variant's publish status); afterwards persist
`p.stock_qty = qty_sum` and deactivate every stored variant whose id was not
seen in this pull. -/
def syncVariantsPass (p : ProductRec) (vars : List VariantRec)
    (vs : List WooVariant) : ProductRec × List VariantRec :=
  let step := fun (acc : List VariantRec × List Int × Int) (v : WooVariant) =>
    match v.id with
    | none => acc
    | some vid =>
        if vid = 0 then acc
        else
          (upsertVariant p acc.1 vid v, acc.2.1 ++ [vid],
           match v.stockQuantity with
           | some n => acc.2.2 + n
           | none => acc.2.2)
  let r := vs.foldl step (vars, [], 0)
  ({ p with stockQty := r.2.2 },
   r.1.map (fun x => if x.wooVariationId ∈ r.2.1 then x
            else { x with isActive := false }))

/-- Declarative form of the aggregate the variants pass persists: the sum of
the stock quantities of every pulled snapshot with a truthy id (0 for
snapshots without a stock quantity), publish status notwithstanding. -/
def pulledQtySum (vs : List WooVariant) : Int :=
  (vs.map (fun v => match v.id with
    | none => 0
    | some vid => if vid = 0 then 0 else v.stockQuantity.getD 0)).sum

/-- C8: the catalog pull never overwrites a locally-set wholesale price: the
admin pull's product update and the management command's product update leave
`wholesale_price` unchanged whatever the snapshot carries, and the variant
update fills it from the parent exactly when the variant's wholesale price is
currently zero, leaving it unchanged otherwise. -/
theorem sync_preserves_wholesale_price :
    (∀ wp p, (syncProductCore wp p).wholesalePrice = p.wholesalePrice) ∧
    (∀ wp p, (commandSyncProduct wp p).wholesalePrice = p.wholesalePrice) ∧
    (∀ p old v, (syncVariantFields p old v).wholesalePrice
        = if old.wholesalePrice = 0 then p.wholesalePrice
          else old.wholesalePrice) :=
  ⟨fun _ _ => rfl, fun _ _ => rfl, fun _ _ _ => rfl⟩

-- ------------------------------------------------------------------
-- Non-negativity of on-hand quantities (C3) and the parent aggregate (C4)
-- ------------------------------------------------------------------

theorem linesQty_cons (a : Line) (ls : List Line) (u : Nat) :
    linesQty (a :: ls) u
      = (if a.unit = u then (a.qty : Int) else 0) + linesQty ls u := by
  by_cases h : a.unit = u <;> simp [linesQty, List.filter_cons, h]

theorem linesQty_nonneg (ls : List Line) (u : Nat) : 0 ≤ linesQty ls u := by
  unfold linesQty
  apply List.sum_nonneg
  intro x hx
  obtain ⟨l, _, rfl⟩ := List.mem_map.mp hx
  exact Int.natCast_nonneg l.qty

theorem linesQty_eq_zero_of_not_mem (ls : List Line) (u : Nat)
    (h : ∀ l ∈ ls, l.unit ≠ u) : linesQty ls u = 0 := by
  unfold linesQty
  have : ls.filter (fun l => l.unit = u) = [] := by
    rw [List.filter_eq_nil_iff]
    intro l hl
    simp [h l hl]
  rw [this]
  simp

theorem linesQty_of_nodup (ls : List Line) (l : Line) (u : Nat)
    (hl : l ∈ ls) (hu : l.unit = u)
    (hnd : (ls.map (fun l => l.unit)).Nodup) :
    linesQty ls u = (l.qty : Int) := by
  induction ls with
  | nil => exact absurd hl (List.not_mem_nil l)
  | cons a ls ih =>
      rw [List.map_cons, List.nodup_cons] at hnd
      rcases List.mem_cons.mp hl with rfl | h2
      · rw [linesQty_cons, if_pos hu]
        have hz : linesQty ls u = 0 := by
          apply linesQty_eq_zero_of_not_mem
          intro l' hl' hc
          apply hnd.1
          have hmem : l'.unit ∈ ls.map (fun l => l.unit) :=
            List.mem_map_of_mem (fun l => l.unit) hl'
          rw [hc, ← hu] at hmem
          exact hmem
        rw [hz]; ring
      · have hau : a.unit ≠ u := by
          intro hc
          apply hnd.1
          have hmem : l.unit ∈ ls.map (fun l => l.unit) :=
            List.mem_map_of_mem (fun l => l.unit) h2
          rw [hu, ← hc] at hmem
          exact hmem
        rw [linesQty_cons, if_neg hau, ih h2 hnd.2]
        ring

/-- C3 (amended part): the order-lifecycle operations preserve non-negativity
of every on-hand quantity.  A submission either rejects (stock untouched) or
reserves quantities it has just checked against availability (each order
references each unit at most once, per the database uniqueness constraint on
`(order, product, variant)`); every staff action either leaves stock untouched
or restocks by a non-negative quantity.  (Cart line mutations, order deletion
and confirmation write no stock at all.) -/
theorem stock_nonneg_preserved_order_ops (s : Stock) (items : List Line)
    (o : OrderSt) (act : AdminAct) (ttnResult : Except String (String × String))
    (now : Nat) (hnd : (items.map (fun l => l.unit)).Nodup)
    (hpos : ∀ u, 0 ≤ s u) :
    (∀ u, 0 ≤ (submitOrder s items).stock u) ∧
    (∀ u, 0 ≤ (orderAdminAction act o s ttnResult now).stock u) := by
  constructor
  · intro u
    unfold submitOrder
    by_cases he : items.isEmpty
    · rw [if_pos he]; exact hpos u
    · rw [if_neg he]
      cases hfs : firstShort s items with
      | some p => exact hpos u
      | none =>
          show 0 ≤ reserveAll s items u
          rw [reserveAll_apply]
          have hall := (firstShort_eq_none_iff s items).mp hfs
          by_cases hmem : ∃ l ∈ items, l.unit = u
          · obtain ⟨l, hl, hlu⟩ := hmem
            have h1 : linesQty items u = (l.qty : Int) :=
              linesQty_of_nodup items l u hl hlu hnd
            have h2 := hall l hl
            have h3 : availOf s l.unit = s u := by
              unfold availOf
              rw [hlu]
              exact max_eq_right (hpos u)
            rw [h1]
            rw [h3] at h2
            linarith
          · push_neg at hmem
            rw [linesQty_eq_zero_of_not_mem items u hmem]
            have := hpos u
            linarith
  · intro u
    cases act with
    | confirm =>
        by_cases h : o.status = .submitted <;> simp [orderAdminAction, h, hpos u]
    | cancel =>
        by_cases h : o.status = .submitted ∨ o.status = .pending_payment
        · simp only [orderAdminAction, if_pos h]
          show 0 ≤ releaseAll s o.items u
          rw [releaseAll_apply]
          have := linesQty_nonneg o.items u
          have := hpos u
          linarith
        · simp [orderAdminAction, h, hpos u]
    | ship =>
        by_cases h : o.status = .pending_payment
        · cases ttnResult with
          | error e => simp [orderAdminAction, h, hpos u]
          | ok pr =>
              obtain ⟨t, r⟩ := pr
              simp [orderAdminAction, h, hpos u]
        · simp [orderAdminAction, h, hpos u]
    | other a => simp [orderAdminAction, hpos u]

/-- Concrete instance for `stock_nonneg_preserved_order_ops`. -/
theorem stock_nonneg_preserved_order_ops_witness :
    (([⟨0, "A", 2⟩] : List Line).map (fun l => l.unit)).Nodup ∧
    0 ≤ (submitOrder exStock5 [⟨0, "A", 2⟩]).stock 0 ∧
    0 ≤ (orderAdminAction .cancel exOrderSub exStock5
          (.error "no call") 0).stock 0 :=
  ⟨by decide,
   (stock_nonneg_preserved_order_ops exStock5 [⟨0, "A", 2⟩] exOrderSub .cancel
      (.error "no call") 0 (by decide) (fun _ => by norm_num [exStock5])).1 0,
   (stock_nonneg_preserved_order_ops exStock5 [⟨0, "A", 2⟩] exOrderSub .cancel
      (.error "no call") 0 (by decide) (fun _ => by norm_num [exStock5])).2 0⟩

/-- C3 (counterexample): the staff inline editor stores the posted integer
without any lower-bound check, so from a state where the on-hand quantity is 0
it drives the quantity to −5 — the non-negativity invariant is not preserved
by every operation of the system. -/
def exProduct : ProductRec :=
  { sku := "P1", name := "Prod", wholesalePrice := 10, retailPrice := 12,
    stockQty := 0, isActive := true, wooId := none, weightG := 100 }

theorem inline_update_breaks_nonnegativity :
    0 ≤ exProduct.stockQty ∧
    (productUpdateInline exProduct none (some (-5)) true).stockQty < 0 := by
  constructor <;> decide

/-- C4 (counterexample): reserving on submit decrements the variant's on-hand
quantity but never recomputes the parent product's stored aggregate.  Unit 1
is the sole active variant of a parent product whose aggregate cell is unit 0;
both start at 5 (the aggregate equals the variant sum), the submission
reserves 2 of the variant, after which the variant holds 3 while the stored
aggregate still holds 5 — the claimed equality between the parent's stored
quantity and the sum of its active variants' quantities is broken by reserve. -/
def exStockPV : Stock := fun w => if w = 0 then 5 else if w = 1 then 5 else 0

theorem reserve_leaves_parent_aggregate_stale :
    (submitOrder exStockPV [⟨1, "P", 2⟩]).status = .submitted ∧
    (submitOrder exStockPV [⟨1, "P", 2⟩]).stock 1 = 3 ∧
    (submitOrder exStockPV [⟨1, "P", 2⟩]).stock 0 = 5 ∧
    (5 : Int) ≠ 3 := by
  refine ⟨by decide, by decide, by decide, by decide⟩

theorem syncVariantsPass_qtySum (p : ProductRec) (vs : List WooVariant)
    (vars : List VariantRec) (seen : List Int) (q0 : Int) :
    (vs.foldl (fun (acc : List VariantRec × List Int × Int) (v : WooVariant) =>
        match v.id with
        | none => acc
        | some vid =>
            if vid = 0 then acc
            else
              (upsertVariant p acc.1 vid v, acc.2.1 ++ [vid],
               match v.stockQuantity with
               | some n => acc.2.2 + n
               | none => acc.2.2)) (vars, seen, q0)).2.2
      = q0 + pulledQtySum vs := by
  induction vs generalizing vars seen q0 with
  | nil => simp [pulledQtySum]
  | cons v vs ih =>
      rw [List.foldl_cons]
      cases hid : v.id with
      | none =>
          simp only
          rw [ih]
          simp [pulledQtySum, hid]
      | some vid =>
          by_cases hz : vid = 0
          · simp only [hz, if_pos rfl]
            rw [ih]
            simp [pulledQtySum, hid, hz]
          · simp only [if_neg hz]
            cases hsq : v.stockQuantity with
            | none =>
                rw [ih]
                simp [pulledQtySum, hid, hz, hsq]
            | some n =>
                rw [ih]
                simp only [pulledQtySum, List.map_cons, List.sum_cons, hid,
                  hsq, if_neg hz, Option.getD_some]
                ring

/-- C4 (amended part): the parent aggregate is recomputed and persisted only
by the catalog pull — the variants pass stores, as the product's quantity, the
sum of the stock quantities of every pulled variant snapshot with a truthy id
(publish status notwithstanding) — while reserve on submit and release on
cancel write only the units referenced by the order's lines and leave any
other unit, in particular a parent product's aggregate cell, unchanged. -/
theorem aggregate_recomputed_only_by_pull (p : ProductRec)
    (vars : List VariantRec) (vs : List WooVariant) (s : Stock)
    (items : List Line) (o : OrderSt)
    (ttnResult : Except String (String × String)) (now : Nat) (u : Nat)
    (hu : ∀ l ∈ items, l.unit ≠ u) (huo : ∀ l ∈ o.items, l.unit ≠ u) :
    (syncVariantsPass p vars vs).1.stockQty = pulledQtySum vs ∧
    (submitOrder s items).stock u = s u ∧
    (orderAdminAction .cancel o s ttnResult now).stock u = s u := by
  refine ⟨?_, ?_, ?_⟩
  · show (vs.foldl _ (vars, [], 0)).2.2 = pulledQtySum vs
    rw [syncVariantsPass_qtySum]
    ring
  · unfold submitOrder
    by_cases he : items.isEmpty
    · rw [if_pos he]
    · rw [if_neg he]
      cases hfs : firstShort s items with
      | some pr => rfl
      | none =>
          show reserveAll s items u = s u
          rw [reserveAll_apply, linesQty_eq_zero_of_not_mem items u hu]
          ring
  · by_cases h : o.status = .submitted ∨ o.status = .pending_payment
    · simp only [orderAdminAction, if_pos h]
      show releaseAll s o.items u = s u
      rw [releaseAll_apply, linesQty_eq_zero_of_not_mem o.items u huo]
      ring
    · simp [orderAdminAction, h]

/-- Concrete instance for `aggregate_recomputed_only_by_pull`: one pulled
variant snapshot with stock 4 (not published, still counted), an order line on
unit 1, and the untouched aggregate cell 0. -/
def exWooVariant : WooVariant :=
  { id := some 11, sku := "V1", price := some 7, stockQuantity := some 4,
    status := "private", weight := none }

def exOrderSubV : OrderSt :=
  { status := .submitted, items := [⟨1, "P", 2⟩],
    shippingTtn := "", shippingNpRef := "", shippedAt := none }

theorem aggregate_recomputed_only_by_pull_witness :
    ((∀ l ∈ ([⟨1, "P", 2⟩] : List Line), l.unit ≠ 0) ∧
     (∀ l ∈ exOrderSubV.items, l.unit ≠ 0)) ∧
    ((syncVariantsPass exProduct [] [exWooVariant]).1.stockQty
        = pulledQtySum [exWooVariant] ∧
     (submitOrder exStockPV [⟨1, "P", 2⟩]).stock 0 = exStockPV 0 ∧
     (orderAdminAction .cancel exOrderSubV exStockPV
        (.error "no call") 0).stock 0 = exStockPV 0) :=
  ⟨⟨by decide, by decide⟩,
   aggregate_recomputed_only_by_pull exProduct [] [exWooVariant] exStockPV
     [⟨1, "P", 2⟩] exOrderSubV (.error "no call") 0 0
     (by decide) (by decide)⟩

-- ------------------------------------------------------------------
-- Insufficiency reporting (C7)
-- ------------------------------------------------------------------

theorem firstShort_append (s : Stock) (pre : List Line) (l : Line)
    (post : List Line)
    (hpre : ∀ l' ∈ pre, (l'.qty : Int) ≤ availOf s l'.unit)
    (hshort : availOf s l.unit < (l.qty : Int)) :
    firstShort s (pre ++ l :: post) = some (l, availOf s l.unit) := by
  induction pre with
  | nil =>
      simp only [List.nil_append, firstShort, if_pos hshort]
  | cons a pre ih =>
      have ha : ¬ availOf s a.unit < (a.qty : Int) :=
        not_lt.mpr (hpre a (by simp))
      simp only [List.cons_append, firstShort, if_neg ha]
      exact ih (fun l' hl' => hpre l' (List.mem_cons_of_mem a hl'))

/-- C7 (amended part): when a submission is rejected for insufficient stock,
the error names exactly the first insufficient line in item order, together
with that line's actually-available quantity; the order stays in draft and no
stock is written.  Later insufficient lines are not part of the report. -/
theorem submit_reports_first_short_line (s : Stock) (pre : List Line)
    (l : Line) (post : List Line)
    (hpre : ∀ l' ∈ pre, (l'.qty : Int) ≤ availOf s l'.unit)
    (hshort : availOf s l.unit < (l.qty : Int)) :
    (submitOrder s (pre ++ l :: post)).reported
      = [(l.sku, availOf s l.unit)] ∧
    (submitOrder s (pre ++ l :: post)).status = .draft ∧
    (submitOrder s (pre ++ l :: post)).stock = s := by
  have hne : ¬ (pre ++ l :: post).isEmpty = true := by
    simp [List.isEmpty_iff]
  unfold submitOrder
  rw [if_neg hne, firstShort_append s pre l post hpre hshort]
  exact ⟨rfl, rfl, rfl⟩

/-- Concrete instance for `submit_reports_first_short_line`: unit 0 has 5 on
hand, units 1 and 2 have none; the draft orders 1×A (unit 0, satisfiable),
2×B (unit 1, short) and 9×C (unit 2, short); the report names B only. -/
def exStockAB : Stock := fun u => if u = 0 then 5 else 0

theorem submit_reports_first_short_line_witness :
    ((∀ l' ∈ ([⟨0, "A", 1⟩] : List Line),
        (l'.qty : Int) ≤ availOf exStockAB l'.unit) ∧
     availOf exStockAB 1 < ((2 : Nat) : Int)) ∧
    ((submitOrder exStockAB
        ([⟨0, "A", 1⟩] ++ ⟨1, "B", 2⟩ :: [⟨2, "C", 9⟩])).reported
      = [("B", availOf exStockAB 1)] ∧
     (submitOrder exStockAB
        ([⟨0, "A", 1⟩] ++ ⟨1, "B", 2⟩ :: [⟨2, "C", 9⟩])).status = .draft ∧
     (submitOrder exStockAB
        ([⟨0, "A", 1⟩] ++ ⟨1, "B", 2⟩ :: [⟨2, "C", 9⟩])).stock = exStockAB) :=
  ⟨⟨by decide, by decide⟩,
   submit_reports_first_short_line exStockAB [⟨0, "A", 1⟩] ⟨1, "B", 2⟩
     [⟨2, "C", 9⟩] (by decide) (by decide)⟩

/-- C7 (counterexample): with two insufficient lines A (unit 0) and B
(unit 1), both short of stock 0, the submission reports only A — line B,
although insufficient, is absent from the report, so the error does not
identify every insufficient line. -/
def exStock0 : Stock := fun _ => 0

theorem second_short_line_not_reported :
    availOf exStock0 1 < ((1 : Nat) : Int) ∧
    (⟨1, "B", 1⟩ : Line) ∈ ([⟨0, "A", 1⟩, ⟨1, "B", 1⟩] : List Line) ∧
    (submitOrder exStock0 [⟨0, "A", 1⟩, ⟨1, "B", 1⟩]).reported
      = [("A", 0)] ∧
    ("B", availOf exStock0 1)
      ∉ (submitOrder exStock0 [⟨0, "A", 1⟩, ⟨1, "B", 1⟩]).reported := by
  refine ⟨by decide, by decide, by decide, by decide⟩

-- ------------------------------------------------------------------
-- Shipment weight (C9)
-- ------------------------------------------------------------------

/-- The weight-bearing data of one order item for
`_compute_order_weight_kg` (`b2b/services/np_api.py` 72–92):
`variantWeightG = none` when the line has no variant; `weight_g` fields are
`PositiveIntegerField`s. -/
structure ItemW where
  variantWeightG : Option Nat
  productWeightG : Nat
  qty : Nat
deriving DecidableEq, Repr

/-- Per-item gram weight: the variant's weight when the line has a variant
with a truthy (non-zero) weight, else the product's weight when truthy,
else 0. -/
def perG (it : ItemW) : Nat :=
  match it.variantWeightG with
  | some w =>
      if w ≠ 0 then w
      else if it.productWeightG ≠ 0 then it.productWeightG else 0
  | none => if it.productWeightG ≠ 0 then it.productWeightG else 0

/-- The accumulation loop `total_g += per_g * int(it.qty or 0)`. -/
def totalGrams (items : List ItemW) : Nat :=
  items.foldl (fun acc it => acc + perG it * it.qty) 0

/-- Round-half-to-even on rationals, the rounding Python's built-in `round`
applies (the source's floats are modelled as exact rationals; every value the
claims touch is an integer divided by a power of ten, where the two agree). -/
def roundHalfEven (q : Rat) : Int :=
  if q - q.floor < 1/2 then q.floor
  else if 1/2 < q - q.floor then q.floor + 1
  else if q.floor % 2 = 0 then q.floor else q.floor + 1

/-- Python `round(x, 1)`. -/
def pyRound1 (x : Rat) : Rat := (roundHalfEven (x * 10) : Rat) / 10

/-- `_compute_order_weight_kg` (`b2b/services/np_api.py` 72–92):
`kg = total_g / 1000.0`; `if kg <= 0: kg = 0.1`;
`kg = round(kg + 1e-9, 1)`. -/
def computeOrderWeightKg (items : List ItemW) : Rat :=
  pyRound1 ((if ((totalGrams items : Rat) / 1000) ≤ 0 then 1/10
             else (totalGrams items : Rat) / 1000) + 1/1000000000)

theorem totalGrams_go (items : List ItemW) (n : Nat) :
    items.foldl (fun acc it => acc + perG it * it.qty) n
      = n + (items.map (fun it => perG it * it.qty)).sum := by
  induction items generalizing n with
  | nil => simp
  | cons it items ih =>
      rw [List.foldl_cons, ih, List.map_cons, List.sum_cons]
      ring

theorem ratFloor_eq_intFloor (q : Rat) : q.floor = ⌊q⌋ := by
  rw [Rat.floor_def, Rat.floor_def']

theorem roundHalfEven_eq_zero (q : Rat) (h0 : 0 ≤ q) (h1 : q < 1/2) :
    roundHalfEven q = 0 := by
  have hf : ⌊q⌋ = 0 := Int.floor_eq_zero_iff.mpr ⟨h0, by linarith⟩
  unfold roundHalfEven
  rw [ratFloor_eq_intFloor, hf]
  have hc : q - ((0 : Int) : Rat) < 1/2 := by push_cast; linarith
  rw [if_pos hc]

theorem roundHalfEven_eq_one (q : Rat) (h0 : 1/2 < q) (h1 : q < 3/2) :
    roundHalfEven q = 1 := by
  unfold roundHalfEven
  rw [ratFloor_eq_intFloor]
  by_cases hq : q < 1
  · have hf : ⌊q⌋ = 0 := Int.floor_eq_zero_iff.mpr ⟨by linarith, hq⟩
    rw [hf]
    have hc1 : ¬ (q - ((0 : Int) : Rat) < 1/2) := by push_cast; linarith
    have hc2 : (1 : Rat)/2 < q - ((0 : Int) : Rat) := by push_cast; linarith
    rw [if_neg hc1, if_pos hc2]
    norm_num
  · have hf : ⌊q⌋ = 1 := by
      rw [Int.floor_eq_iff]
      push_cast
      constructor <;> linarith
    rw [hf]
    have hc1 : q - ((1 : Int) : Rat) < 1/2 := by push_cast; linarith
    rw [if_pos hc1]

theorem one_le_roundHalfEven (q : Rat) (h : 1/2 < q) : 1 ≤ roundHalfEven q := by
  have h0 : (0 : Int) ≤ ⌊q⌋ := by
    rw [Int.le_floor]
    push_cast
    linarith
  unfold roundHalfEven
  rw [ratFloor_eq_intFloor]
  by_cases hf : ⌊q⌋ = 0
  · have hr2 : 1/2 < q - (⌊q⌋ : Rat) := by
      rw [hf]
      push_cast
      linarith
    rw [if_neg (by linarith), if_pos hr2, hf]
    norm_num
  · have hf1 : (1 : Int) ≤ ⌊q⌋ := by omega
    split
    · exact hf1
    · split
      · omega
      · split
        · exact hf1
        · omega

/-- C9 (amended part): the shipment weight is computed from
Σ qty × unit-weight with the variant-to-product weight fallback; an order with
zero computed weight is sent with the minimum 0.1 kg; and any order of at
least 50 grams yields a positive weight.  (The positivity claim fails below 50
grams, see the counterexample: the final rounding to one decimal turns small
positive weights into 0.) -/
theorem order_weight_amended (items : List ItemW) :
    totalGrams items = (items.map (fun it => perG it * it.qty)).sum ∧
    (totalGrams items = 0 → computeOrderWeightKg items = 1/10) ∧
    (50 ≤ totalGrams items → 0 < computeOrderWeightKg items) := by
  refine ⟨by rw [totalGrams, totalGrams_go]; ring, ?_, ?_⟩
  · intro h
    unfold computeOrderWeightKg
    rw [h]
    have hif : ((0 : Nat) : Rat)/1000 ≤ 0 := by norm_num
    rw [if_pos hif]
    unfold pyRound1
    rw [roundHalfEven_eq_one _ (by norm_num) (by norm_num)]
    norm_num
  · intro h
    have hg : (50 : Rat) ≤ (totalGrams items : Rat) := by exact_mod_cast h
    unfold computeOrderWeightKg
    have hkg : ¬ ((totalGrams items : Rat) / 1000 ≤ 0) := by
      push_neg
      linarith
    rw [if_neg hkg]
    unfold pyRound1
    have h1 : (1 : Rat) / 2
        < ((totalGrams items : Rat) / 1000 + 1/1000000000) * 10 := by
      linarith
    have h2 : (1 : Rat) ≤ (roundHalfEven
        (((totalGrams items : Rat) / 1000 + 1/1000000000) * 10) : Rat) := by
      exact_mod_cast one_le_roundHalfEven _ h1
    linarith

/-- Concrete instance for `order_weight_amended`: an empty order ships at the
minimum 0.1 kg, and a 3×20 g order (60 g) ships at a positive weight. -/
theorem order_weight_amended_witness :
    (totalGrams [] = 0 ∧ computeOrderWeightKg [] = 1/10) ∧
    (50 ≤ totalGrams [⟨none, 20, 3⟩] ∧
     0 < computeOrderWeightKg [⟨none, 20, 3⟩]) :=
  ⟨⟨by decide, (order_weight_amended []).2.1 (by decide)⟩,
   ⟨by decide, (order_weight_amended [⟨none, 20, 3⟩]).2.2 (by decide)⟩⟩

/-- C9 (counterexample): one line of one item weighing 20 g: the computed
weight 0.02 kg is positive, so the 0.1 kg minimum is not substituted, and
`round(0.02 + 1e-9, 1)` yields 0.0 — the weight sent to the shipping provider
is 0, not positive. -/
theorem small_weight_rounds_to_zero :
    computeOrderWeightKg [⟨none, 20, 1⟩] = 0 ∧
    ¬ 0 < computeOrderWeightKg [⟨none, 20, 1⟩] ∧
    0 < totalGrams [⟨none, 20, 1⟩] := by
  have ht : totalGrams [⟨none, 20, 1⟩] = 20 := by decide
  have hmain : computeOrderWeightKg [⟨none, 20, 1⟩] = 0 := by
    unfold computeOrderWeightKg
    rw [ht]
    have hif : ¬ (((20 : Nat) : Rat)/1000 ≤ 0) := by norm_num
    rw [if_neg hif]
    unfold pyRound1
    rw [roundHalfEven_eq_zero _ (by norm_num) (by norm_num)]
    norm_num
  exact ⟨hmain, by rw [hmain]; exact lt_irrefl 0, by rw [ht]; norm_num⟩

-- ------------------------------------------------------------------
-- Cart mutations (C10)
-- ------------------------------------------------------------------

/-- Outcome of an add-to-cart request: `outOfStock` when the unit has no
available stock (`messages.info`, cart untouched), `capped` when the computed
increment is not positive (`messages.warning` naming the available quantity,
cart untouched), `added` when the draft line is set to its new quantity. -/
inductive AddOutcome where
  | outOfStock
  | capped (available : Int)
  | added (newQty : Int)
deriving DecidableEq, Repr

/-- `add_to_cart` (views.py 231–257) and the stock arithmetic shared with
`add_to_cart_with_attrs` (views.py 263–305, with the variant's stock in place
of the product's): `available = max(0, stock_qty)`; a missing or unparseable
quantity counts as 1 and the request is normalised by `max(1, ...)`;
`to_add = min(qty_req, available - current)`; the line becomes
`current + to_add` when `to_add` is positive, else nothing changes. -/
def addToCart (stockQty : Int) (qtyRaw : Option Int) (current : Int) :
    AddOutcome :=
  if max 0 stockQty ≤ 0 then .outOfStock
  else
    if min (max 1 (qtyRaw.getD 1)) (max 0 stockQty - current) ≤ 0 then
      .capped (max 0 stockQty)
    else .added (current + min (max 1 (qtyRaw.getD 1)) (max 0 stockQty - current))

/-- Stated from the claim's words, for comparison with `addToCart`: the add
request of quantity q sets the line quantity to c + min(q, a − c) when that
increment is positive and otherwise leaves the cart unchanged, reporting a
warning. -/
def addToCartClaim (a q c : Int) : AddOutcome :=
  if 0 < min q (a - c) then .added (c + min q (a - c)) else .capped a

/-- The posted quantity of a `cart_update_item` edit: absent, unparseable, or
an integer value. -/
inductive QtyParam where
  | absent
  | bad
  | val (q : Int)
deriving DecidableEq, Repr

/-- Outcome of the explicit-quantity branch of `cart_update_item`:
`rolledBack` models an unparseable posted value — the first `int(...)` is
guarded by `try/except` (the old quantity is kept) but the final warning
comparison `q < int(request.POST.get("qty", q))` re-parses the raw value and
raises, and `transaction.atomic` rolls the whole update back. -/
inductive UpdateOutcome where
  | rolledBack
  | deleted
  | set (q : Int)
deriving DecidableEq, Repr

/-- The explicit-quantity branch of `cart_update_item` (views.py 317–355,
`op` neither "inc" nor "dec"): the requested value (defaulting to the current
line quantity when absent) is clamped by `q = max(0, min(q, available))` with
`available = max(0, stock_qty)`; the line is deleted when the clamp reaches 0
and set to the clamped value otherwise; a warning is emitted when the clamp
reduced the requested value. -/
def cartUpdateItemSet (stockQty : Int) (param : QtyParam) (current : Int) :
    UpdateOutcome × Bool :=
  match param with
  | .bad => (.rolledBack, false)
  | .absent =>
      (if max 0 (min current (max 0 stockQty)) ≤ 0 then .deleted
       else .set (max 0 (min current (max 0 stockQty))), false)
  | .val q0 =>
      (if max 0 (min q0 (max 0 stockQty)) ≤ 0 then .deleted
       else .set (max 0 (min q0 (max 0 stockQty))),
       decide (max 0 (min q0 (max 0 stockQty)) < q0))

theorem cartUpdateItemSet_val (a q0 c : Int) :
    cartUpdateItemSet a (.val q0) c
      = (if max 0 (min q0 (max 0 a)) ≤ 0 then .deleted
         else .set (max 0 (min q0 (max 0 a))),
         decide (max 0 (min q0 (max 0 a)) < q0)) := rfl

/-- C10 (counterexample): an add request of quantity 0 on a unit with 5 on
hand and no existing draft line: the claim's formula says the increment
min(0, 5−0) = 0 is not positive, so the cart stays unchanged — but the view
normalises the request to `max(1, 0) = 1` and adds one unit. -/
theorem add_to_cart_zero_request_adds_one :
    addToCart 5 (some 0) 0 = .added 1 ∧
    addToCartClaim 5 0 0 = .capped 5 ∧
    addToCart 5 (some 0) 0 ≠ addToCartClaim 5 0 0 := by
  refine ⟨by decide, by decide, by decide⟩

/-- C10 (amended part): with the requested quantity normalised to
q' = max(1, q) (missing, unparseable or sub-1 requests count as 1), an add
sets the line to c + min(q', a−c) exactly when that increment is positive
(given a positive available quantity a' = max(0, a)), every added line stays
within the available quantity, and an add never reports an insufficiency —
only out-of-stock or a capping warning, leaving the cart unchanged.  Explicit
quantity edits clamp the stored value into [0, available], delete the line
when the clamp reaches 0, and never store more than requested. -/
theorem add_to_cart_clamping (a q c : Int) :
    (∀ n, addToCart a (some q) c = .added n →
       n = c + min (max 1 q) (max 0 a - c) ∧ n ≤ max 0 a) ∧
    (0 < max 0 a → 0 < min (max 1 q) (max 0 a - c) →
       addToCart a (some q) c = .added (c + min (max 1 q) (max 0 a - c))) ∧
    (∀ q0 m, (cartUpdateItemSet a (.val q0) c).1 = .set m →
       0 < m ∧ m ≤ max 0 a ∧ m ≤ q0) ∧
    (∀ q0, min q0 (max 0 a) ≤ 0 →
       (cartUpdateItemSet a (.val q0) c).1 = .deleted) := by
  refine ⟨?_, ?_, ?_, ?_⟩
  · intro n h
    unfold addToCart at h
    by_cases h1 : max 0 a ≤ 0
    · rw [if_pos h1] at h
      exact absurd h (by simp)
    · rw [if_neg h1] at h
      simp only [Option.getD_some] at h
      by_cases h2 : min (max 1 q) (max 0 a - c) ≤ 0
      · rw [if_pos h2] at h
        exact absurd h (by simp)
      · rw [if_neg h2] at h
        simp only [AddOutcome.added.injEq] at h
        refine ⟨h.symm, ?_⟩
        have hmin : min (max 1 q) (max 0 a - c) ≤ max 0 a - c :=
          min_le_right _ _
        rw [← h]
        linarith
  · intro h1 h2
    unfold addToCart
    rw [if_neg (not_le.mpr h1)]
    simp only [Option.getD_some]
    rw [if_neg (not_le.mpr h2)]
  · intro q0 m h
    rw [cartUpdateItemSet_val] at h
    by_cases h1 : max 0 (min q0 (max 0 a)) ≤ 0
    · rw [if_pos h1] at h
      exact absurd h (by simp)
    · rw [if_neg h1] at h
      simp only [UpdateOutcome.set.injEq] at h
      have hx : 0 < min q0 (max 0 a) := by
        by_contra hc
        push_neg at hc
        exact h1 (le_of_eq (max_eq_left hc))
      have hm : m = min q0 (max 0 a) := by
        rw [← h, max_eq_right hx.le]
      refine ⟨?_, ?_, ?_⟩
      · rw [hm]; exact hx
      · rw [hm]; exact min_le_right _ _
      · rw [hm]; exact min_le_left _ _
  · intro q0 h
    rw [cartUpdateItemSet_val]
    have hz : max 0 (min q0 (max 0 a)) ≤ 0 := le_of_eq (max_eq_left h)
    rw [if_pos hz]

/-- Concrete instance for `add_to_cart_clamping`: adding 3 to a line of 1 with
5 available yields 4; an explicit edit to 9 is clamped to the 5 available. -/
theorem add_to_cart_clamping_witness :
    (0 < max 0 (5 : Int) ∧
     0 < min (max 1 (3 : Int)) (max 0 (5 : Int) - 1) ∧
     (cartUpdateItemSet 5 (.val 9) 1).1 = .set 5) ∧
    (addToCart 5 (some 3) 1
        = .added (1 + min (max 1 3) (max 0 5 - 1)) ∧
     (0 < (5 : Int) ∧ (5 : Int) ≤ max 0 (5 : Int) ∧ (5 : Int) ≤ 9)) :=
  ⟨⟨by decide, by decide, by decide⟩,
   (add_to_cart_clamping 5 3 1).2.1 (by decide) (by decide),
   (add_to_cart_clamping 5 3 1).2.2.1 9 5 (by decide)⟩
